import Mathlib

/-!
Formal model of the dxyflake distributed unique ID generator
(GiterLab/dxyflake, `dxyflake.go`), shallowly embedded in Lean 4.

Modelling conventions:
* Go `int64` values (`startTime`, `elapsedTime`, tick counts) are `Int`;
  Go `uint16` values (`machineID`, `serviceID`, `sequence`) are `Nat`
  carried with the invariant `< 2^16` where it matters; Go `uint64`
  identifiers are `Nat` with explicit `% 2^64` at the one operation that
  can wrap (the left shift of the converted `elapsedTime` in `toID`).
* The Go conversion `uint64(x)` of an `int64` is `(Int.emod x (2^64)).toNat`.
* The clock reads (`time.Now()`) are parameters: `NewDxyflake` takes the
  current wall-clock instant in Unix nanoseconds, `NextID` takes the
  already-computed `current` tick (the value of `currentElapsedTime` at
  the moment of the call).  `time.Sleep` has no effect on generator state
  and is not modelled.
* A Go ID-provider function `func() (uint16, error)` is called exactly
  once, during construction, so it is modelled by its one-shot result: a
  pair of the returned value and an optional error message; a `nil`
  function field is `none`.
* The `sync.Mutex` field serializes calls but carries no data; it is
  omitted from the state.
-/

namespace Dxyflake

/-- Bit lengths of the dxyflake ID parts (source constants). -/
def BitLenTime : Nat := 41

/-- Bit length of the machine ID field. -/
def BitLenMachineID : Nat := 5

/-- Bit length of the service ID field. -/
def BitLenServiceID : Nat := 5

/-- Bit length of the sequence number field. -/
def BitLenSequence : Nat := 12

/-- Generator state: the Go struct `dxyflake` (mutex omitted). -/
structure dxyflake where
  startTime   : Int
  elapsedTime : Int
  machineID   : Nat
  serviceID   : Nat
  sequence    : Nat
deriving Repr, DecidableEq

/-- `dxyflakeTimeUnit`: 1e7 nanoseconds, i.e. 10 msec. -/
def dxyflakeTimeUnit : Int := 10000000

/-- `toDxyflakeTime`: Unix nanoseconds divided by the 10ms unit
(Go `int64` division truncates toward zero, `Int.tdiv`). -/
def toDxyflakeTime (unixNano : Int) : Int :=
  Int.tdiv unixNano dxyflakeTimeUnit

/-- `currentElapsedTime`: ticks of the current instant relative to `startTime`. -/
def currentElapsedTime (startTime nowUnixNano : Int) : Int :=
  toDxyflakeTime nowUnixNano - startTime

/-- `2021-10-01 00:00:00 +0000 UTC` (the default start time) in Unix nanoseconds. -/
def defaultStartUnixNano : Int := 1633046400000000000

/-- The Go `Settings` struct.  `StartTime` is the instant in Unix
nanoseconds (`none` models the zero `time.Time`, which is never after the
present-day clock); the providers are modelled by their one-shot results. -/
structure Settings where
  StartTime      : Option Int := none
  MachineID      : Option (Nat × Option String) := none
  ServiceID      : Option (Nat × Option String) := none
  CheckMachineID : Option (Nat → Bool) := none
  CheckServiceID : Option (Nat → Bool) := none

/-- `st.StartTime.After(time.Now())`: strict comparison of instants; the
zero time (year 1) is not after any present-day instant. -/
def startTimeAfter (startTime : Option Int) (nowUnixNano : Int) : Bool :=
  match startTime with
  | some t => decide (nowUnixNano < t)
  | none   => false

/-- `NewDxyflake` (Go returns `*dxyflake`, `nil` on failure; here `Option`).
Mirrors the source exactly, including the single shared `err` variable
that the service-ID provider call overwrites. -/
def NewDxyflake (nowUnixNano : Int) (st : Settings) : Option dxyflake :=
  if startTimeAfter st.StartTime nowUnixNano then none
  else
    let startTime : Int :=
      match st.StartTime with
      | none   => toDxyflakeTime defaultStartUnixNano
      | some t => toDxyflakeTime t
    let machineRes : Nat × Option String :=
      match st.MachineID with
      | none   => (0, none)
      | some r => r
    let serviceRes : Nat × Option String :=
      match st.ServiceID with
      | none   => (0, machineRes.2)
      | some r => r
    if serviceRes.2.isSome
        || (match st.CheckMachineID with
            | some chk => !chk machineRes.1
            | none     => false)
        || (match st.CheckServiceID with
            | some chk => !chk serviceRes.1
            | none     => false)
    then none
    else some { startTime := startTime, elapsedTime := 0,
                machineID := machineRes.1, serviceID := serviceRes.1,
                sequence := (1 <<< BitLenSequence) - 1 }

/-- The `maskSequence` constant of `NextID`. -/
def maskSequence : Nat := (1 <<< BitLenSequence) - 1

/-- The state update performed by `NextID`, with `current` the observed
`currentElapsedTime` value.  The `uint16` increment is taken `% 2^16`
(the Go addition wraps) before the `& maskSequence`.  The sleep on
sequence overflow only delays the caller and leaves the state unchanged. -/
def nextIDUpdate (sf : dxyflake) (current : Int) : dxyflake :=
  if sf.elapsedTime < current then
    { sf with elapsedTime := current, sequence := 0 }
  else
    let seq := ((sf.sequence + 1) % 2 ^ 16) &&& maskSequence
    if seq = 0 then
      { sf with sequence := seq, elapsedTime := sf.elapsedTime + 1 }
    else
      { sf with sequence := seq }

/-- `toID` (Go returns `(uint64, error)`; here a value paired with an
optional error message, the error case returning 0 as in the source).
`uint64(sf.elapsedTime)` is the two's-complement reinterpretation
`(emod _ (2^64)).toNat`, and its left shift wraps `% 2^64`; the other
fields are `uint16`, whose widened shifts (< 2^33) cannot wrap. -/
def toID (sf : dxyflake) : Nat × Option String :=
  if (2 : Int) ^ BitLenTime ≤ sf.elapsedTime then
    (0, some "over the time limit")
  else
    ((((sf.elapsedTime % ((2 : Int) ^ 64)).toNat <<<
          (BitLenMachineID + BitLenServiceID + BitLenSequence)) % 2 ^ 64
        ||| sf.machineID <<< (BitLenServiceID + BitLenSequence)
        ||| sf.serviceID <<< BitLenSequence
        ||| sf.sequence), none)

/-- `NextID`: update the state from the observed `current` tick, then
encode.  Returns the new state (Go mutates in place) and the result. -/
def NextID (sf : dxyflake) (current : Int) : dxyflake × (Nat × Option String) :=
  let sf' := nextIDUpdate sf current
  (sf', toID sf')

/-- Result of `Decompose`: the Go `map[string]uint64` with its six fixed
keys `id`, `msb`, `time`, `machine-id`, `service-id`, `sequence`. -/
structure DecomposedID where
  id        : Nat
  msb       : Nat
  time      : Nat
  machineID : Nat
  serviceID : Nat
  sequence  : Nat
deriving Repr, DecidableEq

/-- `Decompose`: pure field extraction by the source's masks and shifts. -/
def Decompose (id : Nat) : DecomposedID :=
  let maskMachineID : Nat := ((1 <<< BitLenMachineID) - 1) <<< (BitLenServiceID + BitLenSequence)
  let maskServiceID : Nat := ((1 <<< BitLenServiceID) - 1) <<< BitLenSequence
  let maskSeq : Nat := (1 <<< BitLenSequence) - 1
  { id        := id
    msb       := id >>> 63
    time      := id >>> (BitLenMachineID + BitLenServiceID + BitLenSequence)
    machineID := (id &&& maskMachineID) >>> (BitLenServiceID + BitLenSequence)
    serviceID := (id &&& maskServiceID) >>> BitLenSequence
    sequence  := id &&& maskSeq }

/-- The `NextID` state update as the specification words it: if the
observed tick is strictly greater than the stored one, adopt it and reset
the sequence; otherwise increment the sequence modulo 4096, and advance
the stored tick by exactly one when the increment wraps to 0.  Stated
from the spec, to be compared with `nextIDUpdate` (from the source). -/
def specNextIDUpdate (sf : dxyflake) (current : Int) : dxyflake :=
  if current > sf.elapsedTime then
    { sf with elapsedTime := current, sequence := 0 }
  else if (sf.sequence + 1) % 4096 = 0 then
    { sf with elapsedTime := sf.elapsedTime + 1, sequence := (sf.sequence + 1) % 4096 }
  else
    { sf with sequence := (sf.sequence + 1) % 4096 }

/-- A generator state whose elapsed time has just reached the 41-bit
limit `2^41`. -/
def overflowState : dxyflake :=
  { startTime := 0, elapsedTime := 2199023255552, machineID := 0,
    serviceID := 0, sequence := 0 }

/-- Generator state carrying the four layout fields directly; used to
state properties of the encoding for a given field combination. -/
def fieldState (tick m s q : Nat) : dxyflake :=
  { startTime := 0, elapsedTime := (tick : Int), machineID := m,
    serviceID := s, sequence := q }

/-- Type invariant of a generator state: the elapsed tick count is
non-negative and the `uint16` fields are in range.  Construction
establishes it and every `NextID` call preserves it. -/
def GoodState (sf : dxyflake) : Prop :=
  0 ≤ sf.elapsedTime ∧ sf.machineID < 2 ^ 16 ∧ sf.serviceID < 2 ^ 16 ∧
    sf.sequence < 2 ^ 16

/-- Well-formed settings: the modelled providers return `uint16` values,
as the Go function type `func() (uint16, error)` guarantees. -/
def Settings.WF (st : Settings) : Prop :=
  (∀ v e, st.MachineID = some (v, e) → v < 2 ^ 16) ∧
  (∀ v e, st.ServiceID = some (v, e) → v < 2 ^ 16)

/-- Generator states reachable from a successful construction by any
series of `NextID` calls, with arbitrary observed clock values. -/
inductive Reachable : dxyflake → Prop
  | init (nowUnixNano : Int) (st : Settings) (df : dxyflake) (hwf : st.WF)
      (h : NewDxyflake nowUnixNano st = some df) : Reachable df
  | step (sf : dxyflake) (current : Int) (h : Reachable sf) :
      Reachable (nextIDUpdate sf current)

/-- Settings whose machine-ID provider reports failure while the
service-ID provider is present and succeeds. -/
def failingMachineSettings : Settings :=
  { MachineID := some (0, some "machine id failure"),
    ServiceID := some (0, none) }

/-- Settings with no validators whose machine-ID provider returns 32,
one past the largest encodable machine ID. -/
def machine32Settings : Settings :=
  { MachineID := some (32, none) }

/-- C9: encoding the all-zero field combination yields identifier 0, and
decomposing 2^63 - 1 yields time 2^41 - 1, machine-id 31, service-id 31,
sequence 4095 and msb 0. -/
theorem c9_zero_and_max_examples :
    toID { startTime := 0, elapsedTime := 0, machineID := 0, serviceID := 0,
           sequence := 0 } = (0, none)
    ∧ Decompose 9223372036854775807 =
        { id := 9223372036854775807, msb := 0, time := 2199023255551,
          machineID := 31, serviceID := 31, sequence := 4095 } := by
  constructor
  · rfl
  · rfl

/-- Bitwise or of two values below a power of two stays below it. -/
theorem or_lt_two_pow {a b n : Nat} (ha : a < 2 ^ n) (hb : b < 2 ^ n) :
    a ||| b < 2 ^ n := by
  apply Nat.lt_pow_two_of_testBit
  intro i hi
  rw [Nat.testBit_or,
      Nat.testBit_lt_two_pow (Nat.lt_of_lt_of_le ha (Nat.pow_le_pow_right (by omega) hi)),
      Nat.testBit_lt_two_pow (Nat.lt_of_lt_of_le hb (Nat.pow_le_pow_right (by omega) hi))]
  rfl

/-- Extracting a shifted mask field equals a div-mod computation. -/
theorem and_mask_shift (x w k : Nat) :
    (x &&& ((2 ^ w - 1) <<< k)) >>> k = x / 2 ^ k % 2 ^ w := by
  apply Nat.eq_of_testBit_eq
  intro i
  rw [← Nat.shiftRight_eq_div_pow]
  simp only [Nat.testBit_shiftRight, Nat.testBit_and, Nat.testBit_shiftLeft,
    Nat.testBit_mod_two_pow, Nat.testBit_two_pow_sub_one]
  have h2 : k + i - k = i := by omega
  simp [h2, Nat.le_add_right, Bool.and_comm]

/-- Truncation distributes over bitwise or. -/
theorem lor_mod_two_pow (a b n : Nat) :
    (a ||| b) % 2 ^ n = a % 2 ^ n ||| b % 2 ^ n := by
  apply Nat.eq_of_testBit_eq
  intro i
  simp [Nat.testBit_mod_two_pow, Nat.testBit_or, Bool.and_or_distrib_left]

/-- `Decompose` computes the div-mod field extraction of the layout. -/
theorem decompose_eq (id : Nat) :
    Decompose id =
      { id := id, msb := id / 2 ^ 63, time := id / 2 ^ 22,
        machineID := id / 2 ^ 17 % 2 ^ 5, serviceID := id / 2 ^ 12 % 2 ^ 5,
        sequence := id % 2 ^ 12 } := by
  simp only [Decompose]
  congr 1
  · exact Nat.shiftRight_eq_div_pow id 63
  · exact Nat.shiftRight_eq_div_pow id 22
  · exact and_mask_shift id 5 17
  · exact and_mask_shift id 5 12
  · exact Nat.and_pow_two_sub_one_eq_mod id 12

/-- With all four fields in their legal ranges the or-composition of the
layout is a plain sum of the shifted fields. -/
theorem encode_linear (e m s q : Nat) (hm : m < 32) (hs : s < 32)
    (hq : q < 4096) :
    ((e <<< 22 ||| m <<< 17) ||| s <<< 12) ||| q
      = e * 4194304 + m * 131072 + s * 4096 + q := by
  have h1 : (2 : Nat) ^ 12 * s ||| q = 2 ^ 12 * s + q :=
    (Nat.mul_add_lt_is_or (by omega) s).symm
  have h2 : (2 : Nat) ^ 17 * m ||| (2 ^ 12 * s + q) = 2 ^ 17 * m + (2 ^ 12 * s + q) :=
    (Nat.mul_add_lt_is_or (by omega) m).symm
  have h3 : (2 : Nat) ^ 22 * e ||| (2 ^ 17 * m + (2 ^ 12 * s + q))
      = 2 ^ 22 * e + (2 ^ 17 * m + (2 ^ 12 * s + q)) :=
    (Nat.mul_add_lt_is_or (by omega) e).symm
  rw [Nat.lor_assoc, Nat.lor_assoc, Nat.shiftLeft_eq, Nat.shiftLeft_eq,
      Nat.shiftLeft_eq, Nat.mul_comm e, Nat.mul_comm m, Nat.mul_comm s,
      h1, h2, h3]
  omega

/-- `toID` on a state whose fields are all in legal range: no failure,
and the identifier is the linear combination of the fields. -/
theorem toID_ok (sf : dxyflake) (he0 : 0 ≤ sf.elapsedTime)
    (he : sf.elapsedTime < 2 ^ 41) (hm : sf.machineID < 32)
    (hs : sf.serviceID < 32) (hq : sf.sequence < 4096) :
    toID sf = (sf.elapsedTime.toNat * 4194304 + sf.machineID * 131072 +
                 sf.serviceID * 4096 + sf.sequence, none) := by
  have hEn : (sf.elapsedTime % ((2 : Int) ^ 64)).toNat = sf.elapsedTime.toNat := by
    omega
  have hElt : sf.elapsedTime.toNat < 2 ^ 41 := by omega
  have hcond : ¬ ((2 : Int) ^ BitLenTime ≤ sf.elapsedTime) := by
    simp only [BitLenTime]; omega
  unfold toID
  rw [if_neg hcond]
  show ((((sf.elapsedTime % ((2 : Int) ^ 64)).toNat <<< 22) % 2 ^ 64
        ||| sf.machineID <<< 17 ||| sf.serviceID <<< 12 ||| sf.sequence), none) = _
  rw [hEn]
  have hmod : sf.elapsedTime.toNat <<< 22 % 2 ^ 64 = sf.elapsedTime.toNat <<< 22 :=
    Nat.mod_eq_of_lt (by rw [Nat.shiftLeft_eq]; omega)
  rw [hmod, encode_linear _ _ _ _ hm hs hq]

/-- `toID` reports failure exactly when the elapsed time has reached
`2^41`, and then returns 0 as the identifier value. -/
theorem toID_err (sf : dxyflake) :
    ((toID sf).2.isSome ↔ 2 ^ 41 ≤ sf.elapsedTime)
      ∧ ((toID sf).2.isSome → (toID sf).1 = 0) := by
  have hcond : ((2 : Int) ^ BitLenTime ≤ sf.elapsedTime) ↔ 2 ^ 41 ≤ sf.elapsedTime := by
    simp only [BitLenTime]
  unfold toID
  split
  · next h => exact ⟨⟨fun _ => hcond.mp h, fun _ => rfl⟩, fun _ => rfl⟩
  · next h =>
      constructor
      · constructor
        · intro hx; simp at hx
        · intro hc; exact absurd (hcond.mpr hc) h
      · intro hx; simp at hx

/-- Case analysis of the `NextID` state update. -/
theorem nextIDUpdate_cases (sf : dxyflake) (current : Int) :
    (sf.elapsedTime < current ∧
       nextIDUpdate sf current = { sf with elapsedTime := current, sequence := 0 })
  ∨ (¬ sf.elapsedTime < current ∧ (sf.sequence + 1) % 4096 = 0 ∧
       nextIDUpdate sf current
         = { sf with elapsedTime := sf.elapsedTime + 1, sequence := 0 })
  ∨ (¬ sf.elapsedTime < current ∧ (sf.sequence + 1) % 4096 ≠ 0 ∧
       nextIDUpdate sf current
         = { sf with sequence := (sf.sequence + 1) % 4096 }) := by
  have hmask : ((sf.sequence + 1) % 65536) &&& maskSequence
      = (sf.sequence + 1) % 4096 := by
    rw [show maskSequence = 2 ^ 12 - 1 from rfl, Nat.and_pow_two_sub_one_eq_mod]
    omega
  by_cases h : sf.elapsedTime < current
  · left
    exact ⟨h, by rw [nextIDUpdate, if_pos h]⟩
  · by_cases h2 : (sf.sequence + 1) % 4096 = 0
    · right; left
      refine ⟨h, h2, ?_⟩
      rw [nextIDUpdate, if_neg h]
      simp [hmask, h2]
    · right; right
      refine ⟨h, h2, ?_⟩
      rw [nextIDUpdate, if_neg h]
      simp [hmask, h2]

/-- The state update preserves the type invariant. -/
theorem nextIDUpdate_good (sf : dxyflake) (current : Int) (h : GoodState sf) :
    GoodState (nextIDUpdate sf current) := by
  obtain ⟨he, hm, hs, hq⟩ := h
  rcases nextIDUpdate_cases sf current with ⟨h1, heq⟩ | ⟨h1, h2, heq⟩ | ⟨h1, h2, heq⟩ <;>
    rw [heq] <;>
    exact ⟨by dsimp; omega, by dsimp; omega, by dsimp; omega, by dsimp; omega⟩

/-- Field values established by a successful construction. -/
theorem newDxyflake_fields (nowUnixNano : Int) (st : Settings) (df : dxyflake)
    (h : NewDxyflake nowUnixNano st = some df) :
    df.elapsedTime = 0 ∧ df.sequence = 4095 ∧
    (df.machineID = 0 ∨ ∃ e, st.MachineID = some (df.machineID, e)) ∧
    (df.serviceID = 0 ∨ ∃ e, st.ServiceID = some (df.serviceID, e)) := by
  unfold NewDxyflake at h
  split at h
  · cases h
  · rcases hM : st.MachineID with _ | ⟨m, me⟩ <;> simp only [hM] at h <;>
      rcases hS : st.ServiceID with _ | ⟨s, se⟩ <;> simp only [hS] at h <;>
      split at h <;>
      first
        | exact Option.noConfusion h
        | (injection h with h; subst h;
           exact ⟨rfl, rfl, by simp [hM], by simp [hS]⟩)

/-- A successful construction from well-formed settings establishes the
type invariant. -/
theorem newDxyflake_good (nowUnixNano : Int) (st : Settings) (df : dxyflake)
    (hwf : st.WF) (h : NewDxyflake nowUnixNano st = some df) : GoodState df := by
  obtain ⟨he, hq, hm, hs⟩ := newDxyflake_fields nowUnixNano st df h
  refine ⟨by omega, ?_, ?_, by omega⟩
  · rcases hm with h0 | ⟨e, hMr⟩
    · omega
    · exact hwf.1 df.machineID e hMr
  · rcases hs with h0 | ⟨e, hSr⟩
    · omega
    · exact hwf.2 df.serviceID e hSr

/-- Every reachable state satisfies the type invariant. -/
theorem reachable_good (sf : dxyflake) (h : Reachable sf) : GoodState sf := by
  induction h with
  | init nowUnixNano st df hwf hc => exact newDxyflake_good nowUnixNano st df hwf hc
  | step sf current h ih => exact nextIDUpdate_good sf current ih

/-- The state update never changes the configured identifiers or the
start time. -/
theorem nextIDUpdate_ids (sf : dxyflake) (current : Int) :
    (nextIDUpdate sf current).machineID = sf.machineID
    ∧ (nextIDUpdate sf current).serviceID = sf.serviceID
    ∧ (nextIDUpdate sf current).startTime = sf.startTime := by
  rcases nextIDUpdate_cases sf current with ⟨h1, heq⟩ | ⟨h1, h2, heq⟩ | ⟨h1, h2, heq⟩ <;>
    rw [heq] <;> exact ⟨rfl, rfl, rfl⟩

/-- The stored elapsed time never decreases across a state update. -/
theorem nextIDUpdate_elapsed_mono (sf : dxyflake) (current : Int) :
    sf.elapsedTime ≤ (nextIDUpdate sf current).elapsedTime := by
  rcases nextIDUpdate_cases sf current with ⟨h1, heq⟩ | ⟨h1, h2, heq⟩ | ⟨h1, h2, heq⟩ <;>
    rw [heq] <;> dsimp <;> omega

/-- After any state update the sequence counter is in sequence range. -/
theorem nextIDUpdate_seq_lt (sf : dxyflake) (current : Int) :
    (nextIDUpdate sf current).sequence < 4096 := by
  rcases nextIDUpdate_cases sf current with ⟨h1, heq⟩ | ⟨h1, h2, heq⟩ | ⟨h1, h2, heq⟩ <;>
    rw [heq] <;> dsimp <;> omega

/-- A successful encoding implies the elapsed time is below the 41-bit
limit. -/
theorem toID_none_elapsed_lt (sf : dxyflake) (id : Nat)
    (h : toID sf = (id, none)) : sf.elapsedTime < 2 ^ 41 := by
  by_contra hc
  have h2 := (toID_err sf).1.mpr (by omega)
  rw [h] at h2
  simp at h2

/-- With the elapsed time in range and the `uint16` fields in range, the
encoding succeeds and the identifier stays below `2^63`. -/
theorem toID_lt (sf : dxyflake) (he0 : 0 ≤ sf.elapsedTime)
    (he : sf.elapsedTime < 2 ^ 41) (hm : sf.machineID < 2 ^ 16)
    (hs : sf.serviceID < 2 ^ 16) (hq : sf.sequence < 2 ^ 16) :
    (toID sf).1 < 2 ^ 63 ∧ (toID sf).2 = none := by
  have hcond : ¬ ((2 : Int) ^ BitLenTime ≤ sf.elapsedTime) := by
    simp only [BitLenTime]; omega
  have hElt : sf.elapsedTime.toNat < 2 ^ 41 := by omega
  unfold toID
  rw [if_neg hcond]
  refine ⟨?_, rfl⟩
  show ((sf.elapsedTime % ((2 : Int) ^ 64)).toNat <<< 22) % 2 ^ 64
      ||| sf.machineID <<< 17 ||| sf.serviceID <<< 12 ||| sf.sequence < 2 ^ 63
  refine or_lt_two_pow (or_lt_two_pow (or_lt_two_pow ?_ ?_) ?_) ?_
  · exact Nat.lt_of_le_of_lt (Nat.mod_le _ _)
      (by rw [Nat.shiftLeft_eq]; omega)
  · rw [Nat.shiftLeft_eq]; omega
  · rw [Nat.shiftLeft_eq]; omega
  · omega

/-- The low 12 bits of a successfully encoded identifier are exactly the
low 12 bits of the state's sequence counter. -/
theorem toID_val_mod (sf : dxyflake) (id : Nat) (h : toID sf = (id, none)) :
    id % 2 ^ 12 = sf.sequence % 2 ^ 12 := by
  unfold toID at h
  split at h
  · injection h with h1 h2
    exact Option.noConfusion h2
  · injection h with h1 h2
    subst h1
    show ((((sf.elapsedTime % ((2 : Int) ^ 64)).toNat <<< 22) % 2 ^ 64
        ||| sf.machineID <<< 17 ||| sf.serviceID <<< 12 ||| sf.sequence) % 2 ^ 12)
      = sf.sequence % 2 ^ 12
    rw [lor_mod_two_pow, lor_mod_two_pow, lor_mod_two_pow]
    have hA : ((sf.elapsedTime % ((2 : Int) ^ 64)).toNat <<< 22) % 2 ^ 64 % 2 ^ 12
        = 0 := by
      rw [Nat.shiftLeft_eq]; omega
    have hB : (sf.machineID <<< 17) % 2 ^ 12 = 0 := by
      rw [Nat.shiftLeft_eq]; omega
    have hC : (sf.serviceID <<< 12) % 2 ^ 12 = 0 := by
      rw [Nat.shiftLeft_eq]; omega
    rw [hA, hB, hC, Nat.zero_or, Nat.zero_or, Nat.zero_or]

/-- Left shift distributes over bitwise or. -/
theorem shiftLeft_or_distrib (a b k : Nat) :
    (a <<< k) ||| (b <<< k) = (a ||| b) <<< k := by
  apply Nat.eq_of_testBit_eq
  intro i
  simp [Nat.testBit_shiftLeft, Nat.testBit_or, Bool.and_or_distrib_left]

/-- C1: for every tick below 2^41, machine ID in 0..31, service ID in
0..31 and sequence in 0..4095, decomposing the identifier encoded by
`toID` from these four fields recovers exactly those four values in the
time, machine-id, service-id and sequence keys. -/
theorem c1_roundtrip (tick m s q : Nat) (ht : tick < 2 ^ 41) (hm : m ≤ 31)
    (hs : s ≤ 31) (hq : q ≤ 4095) :
    (toID (fieldState tick m s q)).2 = none
    ∧ (Decompose (toID (fieldState tick m s q)).1).time = tick
    ∧ (Decompose (toID (fieldState tick m s q)).1).machineID = m
    ∧ (Decompose (toID (fieldState tick m s q)).1).serviceID = s
    ∧ (Decompose (toID (fieldState tick m s q)).1).sequence = q := by
  have hid := toID_ok (fieldState tick m s q)
    (by show (0 : Int) ≤ (tick : Int); omega)
    (by show ((tick : Nat) : Int) < 2 ^ 41; omega)
    (by show m < 32; omega) (by show s < 32; omega) (by show q < 4096; omega)
  rw [hid]
  have htn : (fieldState tick m s q).elapsedTime.toNat = tick := by
    show ((tick : Nat) : Int).toNat = tick
    omega
  dsimp only
  rw [htn, decompose_eq]
  refine ⟨rfl, ?_, ?_, ?_, ?_⟩ <;> dsimp only [fieldState] <;> omega

/-- C1 witness at tick 5, machine 3, service 2, sequence 7. -/
theorem c1_roundtrip_witness :
    (toID (fieldState 5 3 2 7)).2 = none
    ∧ (Decompose (toID (fieldState 5 3 2 7)).1).time = 5
    ∧ (Decompose (toID (fieldState 5 3 2 7)).1).machineID = 3
    ∧ (Decompose (toID (fieldState 5 3 2 7)).1).serviceID = 2
    ∧ (Decompose (toID (fieldState 5 3 2 7)).1).sequence = 7 :=
  c1_roundtrip 5 3 2 7 (by norm_num) (by norm_num) (by norm_num) (by norm_num)

/-- C2: evaluating `NewDxyflake` on settings whose machine-ID provider
reports failure while a service-ID provider is present and succeeds: the
construction SUCCEEDS (the shared `err` variable is overwritten by the
service-ID provider call), contradicting the claim and the source's own
doc comment that a machine-ID provider error yields no generator. -/
theorem c2_machine_error_clobbered :
    NewDxyflake 0 failingMachineSettings
      = some { startTime := 163304640000, elapsedTime := 0, machineID := 0,
               serviceID := 0, sequence := 4095 } := rfl

/-- C3: each `NextID` call updates the generator state exactly as the
specification describes: on a strictly greater observed tick, adopt it
and reset the sequence to 0; otherwise increment the sequence modulo
4096, additionally advancing the stored tick by exactly 1 when the
increment wraps to 0. -/
theorem c3_update_matches_spec (sf : dxyflake) (current : Int) :
    nextIDUpdate sf current = specNextIDUpdate sf current := by
  rcases nextIDUpdate_cases sf current with ⟨h1, heq⟩ | ⟨h1, h2, heq⟩ | ⟨h1, h2, heq⟩ <;>
    rw [heq, specNextIDUpdate]
  · rw [if_pos h1]
  · rw [if_neg h1, if_pos h2, h2]
  · rw [if_neg h1, if_neg h2]

/-- C6: the stored elapsed time after any `NextID` call is at least its
value before the call, whether the call succeeds or fails and whatever
the observed current tick is. -/
theorem c6_elapsed_nondecreasing (sf : dxyflake) (current : Int) :
    sf.elapsedTime ≤ (NextID sf current).1.elapsedTime :=
  nextIDUpdate_elapsed_mono sf current

/-- C4: a `NextID` call fails (returns an error, with 0 as the
identifier value) exactly when the post-update elapsed time has reached
`2^41`; the mutated state is the one the call returns, so with a
non-decreasing clock the next call fails the same way. -/
theorem c4_failure_iff_overflow (sf : dxyflake) (cur cur' : Int)
    (hclock : cur ≤ cur') :
    ((NextID sf cur).2.2.isSome ↔ 2 ^ 41 ≤ (NextID sf cur).1.elapsedTime)
    ∧ ((NextID sf cur).2.2.isSome → (NextID sf cur).2.1 = 0)
    ∧ ((NextID sf cur).2.2.isSome →
        (NextID (NextID sf cur).1 cur').2.2.isSome
          ∧ (NextID (NextID sf cur).1 cur').2.1 = 0
          ∧ 2 ^ 41 ≤ (NextID (NextID sf cur).1 cur').1.elapsedTime) := by
  have h1 := toID_err (nextIDUpdate sf cur)
  have h2 := toID_err (nextIDUpdate (nextIDUpdate sf cur) cur')
  refine ⟨h1.1, h1.2, ?_⟩
  intro hs
  have he : 2 ^ 41 ≤ (nextIDUpdate sf cur).elapsedTime := h1.1.mp hs
  have hmono := nextIDUpdate_elapsed_mono (nextIDUpdate sf cur) cur'
  have he2 : 2 ^ 41 ≤ (nextIDUpdate (nextIDUpdate sf cur) cur').elapsedTime := by
    omega
  have hs2 := h2.1.mpr he2
  exact ⟨hs2, h2.2 hs2, he2⟩

/-- C4 witness: a state at the limit, observed clock 0 at both calls. -/
theorem c4_failure_iff_overflow_witness :
    ((NextID overflowState 0).2.2.isSome ↔ 2 ^ 41 ≤ (NextID overflowState 0).1.elapsedTime)
    ∧ ((NextID overflowState 0).2.2.isSome → (NextID overflowState 0).2.1 = 0)
    ∧ ((NextID overflowState 0).2.2.isSome →
        (NextID (NextID overflowState 0).1 0).2.2.isSome
          ∧ (NextID (NextID overflowState 0).1 0).2.1 = 0
          ∧ 2 ^ 41 ≤ (NextID (NextID overflowState 0).1 0).1.elapsedTime) :=
  c4_failure_iff_overflow overflowState 0 0 le_rfl

/-- Core of C5: two consecutive successful calls yield strictly
increasing identifiers, for any observed clock values, provided the
configured machine and service IDs are in their 5-bit ranges. -/
theorem nextID_pair_mono (sf : dxyflake) (cur1 cur2 : Int)
    (he0 : 0 ≤ sf.elapsedTime) (hm : sf.machineID ≤ 31) (hs : sf.serviceID ≤ 31)
    (id1 id2 : Nat)
    (h1 : (NextID sf cur1).2 = (id1, none))
    (h2 : (NextID (NextID sf cur1).1 cur2).2 = (id2, none)) :
    id1 < id2 := by
  set sf1 := nextIDUpdate sf cur1 with hsf1
  set sf2 := nextIDUpdate sf1 cur2 with hsf2
  have h1' : toID sf1 = (id1, none) := h1
  have h2' : toID sf2 = (id2, none) := h2
  have e1lt : sf1.elapsedTime < 2 ^ 41 := toID_none_elapsed_lt sf1 id1 h1'
  have e2lt : sf2.elapsedTime < 2 ^ 41 := toID_none_elapsed_lt sf2 id2 h2'
  have e1pos : 0 ≤ sf1.elapsedTime := le_trans he0 (nextIDUpdate_elapsed_mono sf cur1)
  have e2pos : 0 ≤ sf2.elapsedTime := le_trans e1pos (nextIDUpdate_elapsed_mono sf1 cur2)
  have q1lt : sf1.sequence < 4096 := nextIDUpdate_seq_lt sf cur1
  have q2lt : sf2.sequence < 4096 := nextIDUpdate_seq_lt sf1 cur2
  have m1 : sf1.machineID = sf.machineID := (nextIDUpdate_ids sf cur1).1
  have s1 : sf1.serviceID = sf.serviceID := (nextIDUpdate_ids sf cur1).2.1
  have m2 : sf2.machineID = sf1.machineID := (nextIDUpdate_ids sf1 cur2).1
  have s2 : sf2.serviceID = sf1.serviceID := (nextIDUpdate_ids sf1 cur2).2.1
  have hid1 := toID_ok sf1 e1pos e1lt (by omega) (by omega) q1lt
  have hid2 := toID_ok sf2 e2pos e2lt (by omega) (by omega) q2lt
  rw [hid1] at h1'
  rw [hid2] at h2'
  injection h1' with hv1 hrest1
  injection h2' with hv2 hrest2
  have hrel : (sf1.elapsedTime < sf2.elapsedTime ∧ sf2.sequence = 0)
      ∨ (sf2.elapsedTime = sf1.elapsedTime ∧ sf2.sequence = sf1.sequence + 1) := by
    rcases nextIDUpdate_cases sf1 cur2 with ⟨hc, heq⟩ | ⟨hc, hw, heq⟩ | ⟨hc, hw, heq⟩
    · left
      rw [hsf2, heq]
      exact ⟨hc, rfl⟩
    · left
      rw [hsf2, heq]
      exact ⟨by dsimp; omega, rfl⟩
    · right
      rw [hsf2, heq]
      exact ⟨rfl, by dsimp; omega⟩
  omega

/-- C5: for two consecutive successful `NextID` calls on one generator
with legally configured machine and service IDs, under a non-decreasing
observed clock, the second identifier is strictly greater than the first
(hence the two identifiers are distinct). -/
theorem c5_strictly_increasing (sf : dxyflake) (cur1 cur2 : Int)
    (he0 : 0 ≤ sf.elapsedTime) (hm : sf.machineID ≤ 31) (hs : sf.serviceID ≤ 31)
    (hclock : cur1 ≤ cur2) (id1 id2 : Nat)
    (h1 : (NextID sf cur1).2 = (id1, none))
    (h2 : (NextID (NextID sf cur1).1 cur2).2 = (id2, none)) :
    id1 < id2 ∧ id1 ≠ id2 :=
  have h := nextID_pair_mono sf cur1 cur2 he0 hm hs id1 id2 h1 h2
  ⟨h, Nat.ne_of_lt h⟩

/-- C5 witness: fresh all-zero generator state, both calls at tick 1. -/
theorem c5_strictly_increasing_witness :
    (4194304 : Nat) < 4194305 ∧ (4194304 : Nat) ≠ 4194305 :=
  c5_strictly_increasing ⟨0, 0, 0, 0, 0⟩ 1 1 le_rfl
    (by show (0 : Nat) ≤ 31; omega) (by show (0 : Nat) ≤ 31; omega)
    le_rfl 4194304 4194305 rfl rfl

/-- C7: every identifier successfully returned by `NextID` from a
reachable generator state is below `2^63` (its bit 63 is 0), and
decomposing it yields msb 0. -/
theorem c7_msb_zero (sf : dxyflake) (current : Int) (hr : Reachable sf)
    (id : Nat) (h : (NextID sf current).2 = (id, none)) :
    id < 2 ^ 63 ∧ (Decompose id).msb = 0 := by
  have h' : toID (nextIDUpdate sf current) = (id, none) := h
  obtain ⟨he0, hm, hs, hq⟩ := nextIDUpdate_good sf current (reachable_good sf hr)
  have helt := toID_none_elapsed_lt (nextIDUpdate sf current) id h'
  have hlt := (toID_lt (nextIDUpdate sf current) he0 helt hm hs hq).1
  rw [h'] at hlt
  have hlt2 : id < 2 ^ 63 := hlt
  refine ⟨hlt2, ?_⟩
  rw [decompose_eq]
  dsimp only
  omega

/-- C7 witness: the generator of the default settings, first call at
tick 1. -/
theorem c7_msb_zero_witness :
    (4194304 : Nat) < 2 ^ 63 ∧ (Decompose 4194304).msb = 0 :=
  c7_msb_zero
    { startTime := 163304640000, elapsedTime := 0, machineID := 0,
      serviceID := 0, sequence := 4095 } 1
    (Reachable.init 0 {} _
      ⟨fun v e hc => Option.noConfusion hc, fun v e hc => Option.noConfusion hc⟩
      rfl)
    4194304 rfl

/-- C8: every successful construction initializes the sequence counter
to 4095, and the first successful `NextID` call on the fresh generator
returns an identifier whose sequence field is 0. -/
theorem c8_first_sequence_zero (nowUnixNano : Int) (st : Settings)
    (df : dxyflake) (h : NewDxyflake nowUnixNano st = some df)
    (current : Int) (id : Nat) (h2 : (NextID df current).2 = (id, none)) :
    df.sequence = 4095 ∧ (Decompose id).sequence = 0 := by
  obtain ⟨he, hq, hrest⟩ := newDxyflake_fields nowUnixNano st df h
  have h2' : toID (nextIDUpdate df current) = (id, none) := h2
  have hq1 : (nextIDUpdate df current).sequence = 0 := by
    rcases nextIDUpdate_cases df current with ⟨hc, heq⟩ | ⟨hc, hw, heq⟩ | ⟨hc, hw, heq⟩ <;>
      rw [heq] <;> dsimp <;> omega
  have hmod := toID_val_mod (nextIDUpdate df current) id h2'
  rw [hq1] at hmod
  rw [decompose_eq]
  dsimp only
  exact ⟨hq, by omega⟩

/-- C8 witness: the generator of the default settings, first call at
tick 1. -/
theorem c8_first_sequence_zero_witness :
    ({ startTime := 163304640000, elapsedTime := 0, machineID := 0,
       serviceID := 0, sequence := 4095 } : dxyflake).sequence = 4095
    ∧ (Decompose 4194304).sequence = 0 :=
  c8_first_sequence_zero 0 {} _ rfl 1 4194304 rfl

/-- C10: construction performs no range check on provider-returned
identifiers: with no validators and a machine-ID provider returning 32,
`NewDxyflake` succeeds with machine ID 32, while every identifier the
generator then encodes decomposes to machine-id 0, different from the
configured 32 (the excess bit overflows into the timestamp field). -/
theorem c10_no_machine_range_check (nowUnixNano : Int) (sf : dxyflake)
    (hm : sf.machineID = 32) (hs : sf.serviceID = 0) (he0 : 0 ≤ sf.elapsedTime)
    (hq : sf.sequence < 2 ^ 16) (id : Nat) (h : toID sf = (id, none)) :
    Option.map dxyflake.machineID (NewDxyflake nowUnixNano machine32Settings) = some 32
    ∧ (Decompose id).machineID = 0 ∧ (Decompose id).machineID ≠ 32 := by
  refine ⟨rfl, ?_⟩
  have helt := toID_none_elapsed_lt sf id h
  have hEn : (sf.elapsedTime % ((2 : Int) ^ 64)).toNat = sf.elapsedTime.toNat := by
    omega
  have hElt : sf.elapsedTime.toNat < 2 ^ 41 := by omega
  unfold toID at h
  rw [if_neg (by simp only [BitLenTime]; omega)] at h
  have h' : (((sf.elapsedTime % ((2 : Int) ^ 64)).toNat <<< 22) % 2 ^ 64
      ||| sf.machineID <<< 17 ||| sf.serviceID <<< 12 ||| sf.sequence,
      (none : Option String)) = (id, none) := h
  injection h' with h1 hrest
  have hval : ((sf.elapsedTime % ((2 : Int) ^ 64)).toNat <<< 22) % 2 ^ 64
      ||| sf.machineID <<< 17 ||| sf.serviceID <<< 12 ||| sf.sequence
      = (sf.elapsedTime.toNat ||| 1) * 4194304 + sf.sequence := by
    rw [hEn, hm, hs]
    have hmod : sf.elapsedTime.toNat <<< 22 % 2 ^ 64 = sf.elapsedTime.toNat <<< 22 :=
      Nat.mod_eq_of_lt (by rw [Nat.shiftLeft_eq]; omega)
    rw [hmod]
    rw [show (32 : Nat) <<< 17 = 1 <<< 22 from rfl]
    rw [shiftLeft_or_distrib]
    rw [show (0 : Nat) <<< 12 = 0 from rfl, Nat.or_zero]
    have hadd : (2 : Nat) ^ 22 * (sf.elapsedTime.toNat ||| 1) ||| sf.sequence
        = 2 ^ 22 * (sf.elapsedTime.toNat ||| 1) + sf.sequence :=
      (Nat.mul_add_lt_is_or (by omega) (sf.elapsedTime.toNat ||| 1)).symm
    rw [Nat.shiftLeft_eq, Nat.mul_comm, hadd]
  rw [hval] at h1
  rw [decompose_eq]
  dsimp only
  omega

/-- C10 witness: generator state with machine ID 32, service ID 0,
elapsed time 0, sequence 4095. -/
theorem c10_no_machine_range_check_witness :
    Option.map dxyflake.machineID (NewDxyflake 0 machine32Settings) = some 32
    ∧ (Decompose 4198399).machineID = 0 ∧ (Decompose 4198399).machineID ≠ 32 :=
  c10_no_machine_range_check 0
    { startTime := 163304640000, elapsedTime := 0, machineID := 32,
      serviceID := 0, sequence := 4095 }
    rfl rfl le_rfl (by show (4095 : Nat) < 2 ^ 16; omega) 4198399 rfl

end Dxyflake
